import Mathlib

/-!
Verification of the dialecta debate orchestrator.

Go strings are modelled as `List Char` (`Str`); Go byte/rune distinctions do
not matter for any property below.  The orchestration core
(`internal/debate/executor.go`), the prompt builder
(`internal/prompt`), the DeepSeek / Gemini streaming clients
(`internal/llm`) and the CLI option application
(`internal/cli`, `ApplyToConfig`) are embedded as pure functions; external
collaborators (HTTP transport, JSON decoding) appear as explicit oracle
parameters.
-/

set_option autoImplicit false

namespace Dialecta

/-- Go strings, modelled as lists of characters. -/
abbrev Str := List Char

/-- `concatAll cs` is the concatenation of a list of strings (the cumulative
text of a chunk stream). -/
def concatAll : List Str → Str
  | [] => []
  | c :: cs => c ++ concatAll cs

/-- `begMatch pat s` is true iff `pat` is a leading segment of `s`
(Go `strings.HasPrefix s pat`). -/
def begMatch : Str → Str → Bool
  | [], _ => true
  | _ :: _, [] => false
  | a :: as, b :: bs => a = b && begMatch as bs

/-- `containsSub pat s` is true iff `pat` occurs as a contiguous substring of
`s` (Go `strings.Contains s pat`). -/
def containsSub (pat : Str) : Str → Bool
  | [] => begMatch pat []
  | c :: rest => begMatch pat (c :: rest) || containsSub pat rest

/-- `splitFirst pat s` splits `s` at the first occurrence of `pat`:
`some (pre, post)` with `s = pre ++ pat ++ post` and `pre` minimal, or `none`
when `pat` does not occur (Go `strings.Index` plus slicing). -/
def splitFirst (pat : Str) : Str → Option (Str × Str)
  | [] => if begMatch pat [] then some ([], []) else none
  | c :: rest =>
    if begMatch pat (c :: rest) then some ([], (c :: rest).drop pat.length)
    else
      match splitFirst pat rest with
      | some (pre, post) => some (c :: pre, post)
      | none => none

/-- `countOccs pat s` counts the positions of `s` at which `pat` begins
(occurrence count of a substring). -/
def countOccs (pat : Str) : Str → Nat
  | [] => if begMatch pat [] then 1 else 0
  | c :: rest => (if begMatch pat (c :: rest) then 1 else 0) + countOccs pat rest

theorem begMatch_nil (s : Str) : begMatch [] s = true := by
  cases s <;> rfl

theorem begMatch_iff_append (pat s : Str) :
    begMatch pat s = true ↔ ∃ t, s = pat ++ t := by
  induction pat generalizing s with
  | nil =>
    simp only [begMatch_nil, List.nil_append, true_iff]
    exact ⟨s, rfl⟩
  | cons a as ih =>
    cases s with
    | nil =>
      simp [begMatch]
    | cons b bs =>
      simp only [begMatch, Bool.and_eq_true, decide_eq_true_eq, ih]
      constructor
      · rintro ⟨rfl, t, rfl⟩; exact ⟨t, rfl⟩
      · rintro ⟨t, h⟩
        injection h with h1 h2
        exact ⟨h1.symm, t, h2⟩

theorem begMatch_length_le {pat s : Str} (h : begMatch pat s = true) :
    pat.length ≤ s.length := by
  obtain ⟨t, rfl⟩ := (begMatch_iff_append pat s).1 h
  simp

theorem begMatch_append_right {pat s : Str} (t : Str)
    (h : begMatch pat s = true) : begMatch pat (s ++ t) = true := by
  obtain ⟨u, rfl⟩ := (begMatch_iff_append pat s).1 h
  exact (begMatch_iff_append pat _).2 ⟨u ++ t, by simp⟩

theorem begMatch_append_of_le {pat s : Str} (t : Str)
    (h : pat.length ≤ s.length) : begMatch pat (s ++ t) = begMatch pat s := by
  induction pat generalizing s with
  | nil => simp [begMatch_nil]
  | cons a as ih =>
    cases s with
    | nil => simp at h
    | cons b bs =>
      simp only [List.cons_append, begMatch, List.append_eq]
      rw [ih (Nat.le_of_succ_le_succ h)]

theorem begMatch_self_append (pat t : Str) : begMatch pat (pat ++ t) = true :=
  (begMatch_iff_append pat _).2 ⟨t, rfl⟩

theorem splitFirst_eq_append {pat s pre post : Str}
    (h : splitFirst pat s = some (pre, post)) : s = pre ++ pat ++ post := by
  induction s generalizing pre post with
  | nil =>
    by_cases hb : begMatch pat [] = true
    · have hlen := begMatch_length_le hb
      have hpat : pat = [] := List.eq_nil_of_length_eq_zero (Nat.le_zero.1 hlen)
      simp only [splitFirst, hb, if_true] at h
      injection h with h2
      injection h2 with h3 h4
      simp [hpat, ← h3, ← h4]
    · simp only [splitFirst, hb] at h
      simp at h
  | cons c rest ih =>
    by_cases hb : begMatch pat (c :: rest) = true
    · obtain ⟨t, ht⟩ := (begMatch_iff_append pat (c :: rest)).1 hb
      simp only [splitFirst, hb, if_true] at h
      injection h with h2
      injection h2 with h3 h4
      subst h3
      rw [ht, List.drop_left] at h4
      simp [ht, ← h4]
    · simp only [splitFirst, hb, if_false, Bool.false_eq_true] at h
      cases hr : splitFirst pat rest with
      | none => rw [hr] at h; simp at h
      | some pp =>
        rw [hr] at h
        cases pp with
        | mk pre1 post1 =>
          simp only [Option.some.injEq, Prod.mk.injEq] at h
          obtain ⟨h3, h4⟩ := h
          have h5 : rest = pre1 ++ pat ++ post1 := @ih pre1 post1 (by rw [hr])
          subst h4
          rw [← h3]
          simp [h5]

theorem splitFirst_append {pat s pre post : Str} (t : Str)
    (h : splitFirst pat s = some (pre, post)) :
    splitFirst pat (s ++ t) = some (pre, post ++ t) := by
  induction s generalizing pre post with
  | nil =>
    by_cases hb : begMatch pat [] = true
    · have hpat : pat = [] :=
        List.eq_nil_of_length_eq_zero (Nat.le_zero.1 (begMatch_length_le hb))
      simp only [splitFirst, hb, if_true] at h
      injection h with h2
      injection h2 with h3 h4
      subst hpat; subst h3; subst h4
      cases t with
      | nil => simp [splitFirst, begMatch_nil]
      | cons c rest => simp [splitFirst, begMatch_nil]
    · simp only [splitFirst, hb] at h
      simp at h
  | cons c rest ih =>
    by_cases hb : begMatch pat (c :: rest) = true
    · simp only [splitFirst, hb, if_true] at h
      injection h with h2
      injection h2 with h3 h4
      have hb2 : begMatch pat ((c :: rest) ++ t) = true :=
        begMatch_append_right t hb
      have hlen : pat.length ≤ (c :: rest).length := begMatch_length_le hb
      simp only [List.cons_append, List.append_eq, splitFirst] at hb2 ⊢
      rw [hb2]
      subst h3
      simp only [if_true, Option.some.injEq, Prod.mk.injEq, true_and]
      rw [← h4, show c :: (rest ++ t) = (c :: rest) ++ t from
        (List.cons_append c rest t).symm]
      exact List.drop_append_of_le_length hlen
    · simp only [splitFirst, hb, if_false, Bool.false_eq_true] at h
      cases hr : splitFirst pat rest with
      | none => rw [hr] at h; simp at h
      | some pp =>
        rw [hr] at h
        cases pp with
        | mk pre1 post1 =>
          simp only [Option.some.injEq, Prod.mk.injEq] at h
          obtain ⟨h3, h4⟩ := h
          have hrec := @ih pre1 post1 (by rw [hr])
          have hlen : pat.length ≤ (c :: rest).length := by
            have h5 : rest = pre1 ++ pat ++ post1 :=
              splitFirst_eq_append (by rw [hr])
            subst h5
            simp only [List.length_cons, List.length_append]
            omega
          have hb2 : begMatch pat ((c :: rest) ++ t) = false := by
            rw [begMatch_append_of_le t hlen]
            exact Bool.of_not_eq_true hb
          simp only [List.cons_append, List.append_eq, splitFirst] at hb2 ⊢
          rw [hb2]
          simp only [Bool.false_eq_true, if_false]
          rw [hrec]
          simp [h3, h4]

theorem containsSub_eq_isSome (pat s : Str) :
    containsSub pat s = (splitFirst pat s).isSome := by
  induction s with
  | nil =>
    by_cases hb : begMatch pat [] = true <;>
      simp [containsSub, splitFirst, hb]
  | cons c rest ih =>
    by_cases hb : begMatch pat (c :: rest) = true
    · simp [containsSub, splitFirst, hb]
    · simp only [containsSub, splitFirst, hb, Bool.false_eq_true, if_false,
        Bool.false_or]
      rw [ih]
      cases splitFirst pat rest with
      | none => rfl
      | some pp => cases pp; rfl

theorem containsSub_nil_pat (s : Str) : containsSub [] s = true := by
  cases s <;> simp [containsSub, begMatch_nil]

theorem containsSub_append_right {pat s : Str} (t : Str)
    (h : containsSub pat s = true) : containsSub pat (s ++ t) = true := by
  rw [containsSub_eq_isSome] at h ⊢
  cases hr : splitFirst pat s with
  | none => rw [hr] at h; simp at h
  | some pp =>
    cases pp with
    | mk pre post => rw [splitFirst_append t hr]; rfl

theorem containsSub_mid (pat a b : Str) :
    containsSub pat (a ++ pat ++ b) = true := by
  induction a with
  | nil =>
    cases pat with
    | nil => exact containsSub_nil_pat _
    | cons c rest =>
      have h1 : begMatch (c :: rest) ((c :: rest) ++ b) = true :=
        begMatch_self_append _ _
      rw [List.cons_append] at h1
      simp only [List.nil_append, List.cons_append, List.append_eq, containsSub]
      rw [h1]
      simp
  | cons x xs ih =>
    have heq : (x :: xs) ++ pat ++ b = x :: (xs ++ pat ++ b) := by simp
    rw [heq]
    simp only [containsSub]
    rw [ih]
    simp

theorem splitFirst_nil_of_ne {pat : Str} (h : pat ≠ []) :
    splitFirst pat [] = none := by
  cases pat with
  | nil => exact absurd rfl h
  | cons c rest => rfl

theorem one_le_countOccs_iff (pat s : Str) :
    1 ≤ countOccs pat s ↔ containsSub pat s = true := by
  induction s with
  | nil =>
    by_cases hb : begMatch pat [] = true <;>
      simp [countOccs, containsSub, hb]
  | cons c rest ih =>
    by_cases hb : begMatch pat (c :: rest) = true
    · simp only [countOccs, containsSub, hb, if_true, Bool.true_or, iff_true]
      omega
    · simp [countOccs, containsSub, hb, ih]

/-- True for the ASCII whitespace characters trimmed by Go
`strings.TrimSpace` (the inputs here never carry other Unicode space). -/
def isWS (c : Char) : Bool :=
  c = ' ' || c = '\n' || c = '\t' || c = '\r'

/-- Whitespace-trim both ends of a string (Go `strings.TrimSpace`). -/
def trimWS (s : Str) : Str :=
  ((s.dropWhile isWS).reverse.dropWhile isWS).reverse

/-- Modelled from the spec: the secondary heading token that marks where the
headline text starts inside the pre-marker region (`## 💡 One-Liner`, the
heading used by the repository's prompts and tests).  The parser source file
is missing from src/; the token is fixed by the spec's "configured secondary
token" and the executor test's input. -/
def oneLinerHeading : Str := "## 💡 One-Liner".data

/-- Modelled from the spec: the per-role incremental parser state
(`ParserState`, §3) of the missing `StreamParser` implementation; only its
callers (`executor.go`) and its test (`TestParserParsing`) are in src/. -/
structure StreamParser where
  marker : Str
  secondary : Str
  buffer : Str
  headlineFound : Bool
  oneLiner : Str
  fullBody : Str
deriving Repr, DecidableEq

/-- Modelled from the spec: extract the headline from the pre-marker region —
locate the secondary heading token and whitespace-trim the text after it
(whole region trimmed when the token is absent, so no content is dropped). -/
def extractHeadline (secondary pre : Str) : Str :=
  match splitFirst secondary pre with
  | some (_, post) => trimWS post
  | none => trimWS pre

/-- Modelled from the spec: `NewStreamParser(marker)` — initial state, empty
buffer, headline not yet found (matches `NewStreamParser` calls in
`executor.go`). -/
def NewStreamParser (marker : Str) : StreamParser :=
  { marker := marker, secondary := oneLinerHeading, buffer := [],
    headlineFound := false, oneLiner := [], fullBody := [] }

/-- Modelled from the spec: `Feed(chunk) -> (headline, justFound)` (§4.1).
Appends the chunk to the buffer; once the headline was found, grows only the
full body; otherwise searches the cumulative buffer for the marker and on the
first hit splits it into headline region and full-body seed. -/
def feed (p : StreamParser) (chunk : Str) : StreamParser × Str × Bool :=
  let buf := p.buffer ++ chunk
  if p.headlineFound then
    ({ p with buffer := buf, fullBody := p.fullBody ++ chunk }, [], false)
  else
    match splitFirst p.marker buf with
    | some (pre, post) =>
      let h := extractHeadline p.secondary pre
      ({ p with buffer := buf, headlineFound := true, oneLiner := h,
                fullBody := post }, h, true)
    | none => ({ p with buffer := buf }, [], false)

/-- Modelled from the spec: `Finalize()` (§4.1).  If the marker never
appeared, the entire accumulated buffer becomes the full body and the
headline stays empty; otherwise the collected full body is whitespace-trimmed
(the test `TestParserParsing` and the spec's §8 scenario require the body
`"This is the body."` from the post-marker text `"\nThis is the body."`). -/
def finalize (p : StreamParser) : StreamParser :=
  if p.headlineFound then { p with fullBody := trimWS p.fullBody }
  else { p with fullBody := p.buffer }

/-- Feed a whole chunk sequence, keeping only the final state
(the executor's per-chunk callback loop). -/
def feedAll (p : StreamParser) (cs : List Str) : StreamParser :=
  cs.foldl (fun q c => (feed q c).1) p

/-- The `justFound` flag reported by each `Feed` call of a chunk sequence. -/
def feedFlags (p : StreamParser) : List Str → List Bool
  | [] => []
  | c :: cs => (feed p c).2.2 :: feedFlags (feed p c).1 cs

/-- The parser state reached after seeing `text` in one gulp: the functional
denotation used to prove chunking-invariance. -/
def parseWhole (m sec text : Str) : StreamParser :=
  match splitFirst m text with
  | some (pre, post) =>
    { marker := m, secondary := sec, buffer := text, headlineFound := true,
      oneLiner := extractHeadline sec pre, fullBody := post }
  | none =>
    { marker := m, secondary := sec, buffer := text, headlineFound := false,
      oneLiner := [], fullBody := [] }

theorem feed_parseWhole (m sec b c : Str) :
    (feed (parseWhole m sec b) c).1 = parseWhole m sec (b ++ c) := by
  cases hs : splitFirst m b with
  | some pp =>
    cases pp with
    | mk pre post =>
      have hs2 : splitFirst m (b ++ c) = some (pre, post ++ c) :=
        splitFirst_append c hs
      simp [parseWhole, feed, hs, hs2]
  | none =>
    cases hs2 : splitFirst m (b ++ c) with
    | some pp =>
      cases pp with
      | mk pre post => simp [parseWhole, feed, hs, hs2]
    | none => simp [parseWhole, feed, hs, hs2]

theorem feedAll_parseWhole (m sec : Str) (cs : List Str) (b : Str) :
    feedAll (parseWhole m sec b) cs = parseWhole m sec (b ++ concatAll cs) := by
  induction cs generalizing b with
  | nil => simp [feedAll, concatAll]
  | cons c cs ih =>
    show feedAll (feed (parseWhole m sec b) c).1 cs = _
    rw [feed_parseWhole, ih, concatAll, ← List.append_assoc]

theorem NewStreamParser_eq_parseWhole {m : Str} (hm : m ≠ []) :
    NewStreamParser m = parseWhole m oneLinerHeading [] := by
  simp [NewStreamParser, parseWhole, splitFirst_nil_of_ne hm]

theorem feedAll_NewStreamParser {m : Str} (hm : m ≠ []) (cs : List Str) :
    feedAll (NewStreamParser m) cs = parseWhole m oneLinerHeading (concatAll cs) := by
  rw [NewStreamParser_eq_parseWhole hm, feedAll_parseWhole]
  simp

/-- The `justFound` flags a caller should observe, written in terms of the
cumulative buffer: a call reports discovery iff the marker is absent from the
buffer before the call and present after it. -/
def expectedFlags (m : Str) (b : Str) : List Str → List Bool
  | [] => []
  | c :: cs => ((!containsSub m b) && containsSub m (b ++ c)) :: expectedFlags m (b ++ c) cs

theorem feed_flag_parseWhole (m sec b c : Str) :
    (feed (parseWhole m sec b) c).2.2 =
      ((!containsSub m b) && containsSub m (b ++ c)) := by
  cases hs : splitFirst m b with
  | some pp =>
    cases pp with
    | mk pre post =>
      have hcb : containsSub m b = true := by
        rw [containsSub_eq_isSome, hs]; rfl
      simp [feed, parseWhole, hs, hcb]
  | none =>
    have hcb : containsSub m b = false := by
      rw [containsSub_eq_isSome, hs]; rfl
    cases hs2 : splitFirst m (b ++ c) with
    | some pp =>
      cases pp with
      | mk pre post =>
        have hc2 : containsSub m (b ++ c) = true := by
          rw [containsSub_eq_isSome, hs2]; rfl
        simp [feed, parseWhole, hs, hs2, hcb, hc2]
    | none =>
      have hc2 : containsSub m (b ++ c) = false := by
        rw [containsSub_eq_isSome, hs2]; rfl
      simp [feed, parseWhole, hs, hs2, hcb, hc2]

theorem feedFlags_parseWhole (m sec : Str) (cs : List Str) (b : Str) :
    feedFlags (parseWhole m sec b) cs = expectedFlags m b cs := by
  induction cs generalizing b with
  | nil => rfl
  | cons c cs ih =>
    show (feed (parseWhole m sec b) c).2.2 ::
        feedFlags (feed (parseWhole m sec b) c).1 cs = _
    rw [feed_flag_parseWhole, feed_parseWhole, ih, expectedFlags]

theorem expectedFlags_count (m : Str) (cs : List Str) (b : Str) :
    (expectedFlags m b cs).count true =
      (if containsSub m b then 0
       else if containsSub m (b ++ concatAll cs) then 1 else 0) := by
  induction cs generalizing b with
  | nil =>
    simp only [expectedFlags, List.count_nil, concatAll, List.append_nil]
    by_cases hb : containsSub m b = true <;> simp [hb]
  | cons c cs ih =>
    simp only [expectedFlags, List.count_cons, ih, concatAll]
    by_cases hb : containsSub m b = true
    · have hbc : containsSub m (b ++ c) = true := containsSub_append_right c hb
      have hall : containsSub m (b ++ (c ++ concatAll cs)) = true := by
        rw [← List.append_assoc]
        exact containsSub_append_right _ hbc
      simp [hb, hbc, hall]
    · have hb' : containsSub m b = false := Bool.of_not_eq_true hb
      by_cases hbc : containsSub m (b ++ c) = true
      · have hall : containsSub m (b ++ (c ++ concatAll cs)) = true := by
          rw [← List.append_assoc]
          exact containsSub_append_right _ hbc
        simp [hb', hbc, hall]
      · have hbc' : containsSub m (b ++ c) = false := Bool.of_not_eq_true hbc
        simp [hb', hbc', List.append_assoc]

theorem expectedFlags_get? (m : Str) (cs : List Str) (b : Str) (k : Nat)
    (hk : k < cs.length) :
    (expectedFlags m b cs).get? k =
      some ((!containsSub m (b ++ concatAll (cs.take k))) &&
            containsSub m (b ++ concatAll (cs.take (k + 1)))) := by
  induction cs generalizing b k with
  | nil => simp at hk
  | cons c cs ih =>
    cases k with
    | zero => simp [expectedFlags, concatAll]
    | succ k =>
      have hk' : k < cs.length := Nat.lt_of_succ_lt_succ hk
      show (expectedFlags m (b ++ c) cs).get? k = _
      rw [ih (b ++ c) k hk']
      simp [concatAll, List.append_assoc]

theorem containsSub_nil_of_ne {m : Str} (hm : m ≠ []) :
    containsSub m [] = false := by
  cases m with
  | nil => exact absurd rfl hm
  | cons c rest => rfl

/-- C5: for every chunk list whose concatenation contains the marker exactly
once, the `Feed` calls report `justFound = true` exactly once, namely on the
call whose cumulative buffer first contains the marker, and the headline and
full body after `Finalize` are the same for any other chunking of the same
total text (chunking-invariance). -/
theorem C5_feed_reports_once_chunking_invariant (m : Str) (cs cs2 : List Str)
    (hm : m ≠ []) (h1 : countOccs m (concatAll cs) = 1)
    (hj : concatAll cs2 = concatAll cs) :
    (feedFlags (NewStreamParser m) cs).count true = 1
    ∧ (∀ k, k < cs.length →
        (feedFlags (NewStreamParser m) cs).get? k =
          some ((!containsSub m (concatAll (cs.take k))) &&
                containsSub m (concatAll (cs.take (k + 1)))))
    ∧ (finalize (feedAll (NewStreamParser m) cs2)).oneLiner
        = (finalize (feedAll (NewStreamParser m) cs)).oneLiner
    ∧ (finalize (feedAll (NewStreamParser m) cs2)).fullBody
        = (finalize (feedAll (NewStreamParser m) cs)).fullBody := by
  have hflags : feedFlags (NewStreamParser m) cs = expectedFlags m [] cs := by
    rw [NewStreamParser_eq_parseWhole hm, feedFlags_parseWhole]
  have hcontains : containsSub m (concatAll cs) = true :=
    (one_le_countOccs_iff m (concatAll cs)).1 (by omega)
  refine ⟨?_, ?_, ?_, ?_⟩
  · rw [hflags, expectedFlags_count, containsSub_nil_of_ne hm,
      List.nil_append, hcontains]
    rfl
  · intro k hk
    rw [hflags, expectedFlags_get? m cs [] k hk]
    simp
  · rw [feedAll_NewStreamParser hm, feedAll_NewStreamParser hm, hj]
  · rw [feedAll_NewStreamParser hm, feedAll_NewStreamParser hm, hj]

theorem C5_feed_reports_once_chunking_invariant_witness :
    (("## X".data : Str) ≠ []
      ∧ countOccs "## X".data
          (concatAll ["ab".data, "c## X".data, "\n".data, "hi".data]) = 1
      ∧ concatAll ["abc## X\nhi".data]
          = concatAll ["ab".data, "c## X".data, "\n".data, "hi".data])
    ∧ (feedFlags (NewStreamParser "## X".data)
         ["ab".data, "c## X".data, "\n".data, "hi".data]).count true = 1 :=
  ⟨⟨by decide, by decide, by decide⟩,
   (C5_feed_reports_once_chunking_invariant "## X".data
      ["ab".data, "c## X".data, "\n".data, "hi".data]
      ["abc## X\nhi".data]
      (by decide) (by decide) (by decide)).1⟩

/-- C6: when the marker never occurs in the whole stream, `Finalize` leaves
the headline empty and makes the full body the entire accumulated input, so
no content is dropped. -/
theorem C6_finalize_fallback_keeps_everything (m : Str) (cs : List Str)
    (h : containsSub m (concatAll cs) = false) :
    (finalize (feedAll (NewStreamParser m) cs)).oneLiner = []
    ∧ (finalize (feedAll (NewStreamParser m) cs)).fullBody = concatAll cs := by
  have hm : m ≠ [] := by
    intro he
    rw [he, containsSub_nil_pat] at h
    simp at h
  rw [feedAll_NewStreamParser hm]
  have hs : splitFirst m (concatAll cs) = none := by
    rw [containsSub_eq_isSome] at h
    cases hx : splitFirst m (concatAll cs) with
    | none => rfl
    | some pp => rw [hx] at h; simp at h
  simp [parseWhole, finalize, hs]

theorem C6_finalize_fallback_keeps_everything_witness :
    containsSub "## X".data (concatAll ["hello ".data, "world".data]) = false
    ∧ (finalize (feedAll (NewStreamParser "## X".data)
        ["hello ".data, "world".data])).fullBody = "hello world".data :=
  ⟨by decide,
   ((C6_finalize_fallback_keeps_everything "## X".data
      ["hello ".data, "world".data] (by decide)).2).trans (by decide)⟩

/-! ### The debate executor (`internal/debate/executor.go`) -/

/-- The two Phase-1 markers and the Phase-2 marker passed to
`NewStreamParser` in `Execute`. -/
def argMarker : Str := "## 📝 Full Argument".data

/-- Marker for the judge's parser (`executor.go` line 180). -/
def verdictMarker : Str := "## 📝 Full Verdict".data

/-- The three debate roles. -/
inductive Role where
  | pro
  | con
  | judge
deriving Repr, DecidableEq

/-- Role name used when wrapping a transport error
(`fmt.Errorf("affirmative: %w", err)` etc.). -/
def roleName : Role → Str
  | Role.pro => "affirmative".data
  | Role.con => "negative".data
  | Role.judge => "adjudicator".data

/-- Short role name used in the client-construction error message
(`fmt.Errorf("create pro client: %w", err)` etc.). -/
def shortName : Role → Str
  | Role.pro => "pro".data
  | Role.con => "con".data
  | Role.judge => "judge".data

/-- An invocation of a role's Event-Sink callback `func(string, bool)`:
`headline r t` is the call `(t, false)` made when the parser first reports the
one-liner, `done r` is the completion call `("", true)`. -/
inductive Event where
  | headline (r : Role) (text : Str)
  | done (r : Role)
deriving Repr, DecidableEq

/-- The error values `Execute` can return.  `createClient r m` models
`fmt.Errorf("create <role> client: %w", m)`; `roleWrapped r m` models
`fmt.Errorf("<roleName>: %w", m)`; `plain m` models an error returned without
wrapping (the non-streaming Pro/Con path, where the inner `err` of
`full, err := client.Chat(...)` is shadowed, so the wrapping `if err != nil`
after the branch tests the outer, nil, `err`). -/
inductive GoError where
  | createClient (r : Role) (inner : Str)
  | roleWrapped (r : Role) (inner : Str)
  | plain (inner : Str)
deriving Repr, DecidableEq

/-- The message text of a `GoError`, as `Error()` would render it. -/
def renderErr : GoError → Str
  | GoError.createClient r i =>
      "create ".data ++ shortName r ++ " client: ".data ++ i
  | GoError.roleWrapped r i => roleName r ++ ": ".data ++ i
  | GoError.plain i => i

/-- One chat message (`llm.Message`). -/
structure Msg where
  role : Str
  content : Str
deriving Repr, DecidableEq

/-- Modelled from the spec: `prompt.AdjudicatorSystemPrompt` lives in a prompt
file missing from src/; its exact text is irrelevant to every claim. -/
def AdjudicatorSystemPrompt : Str := "adjudicator-system-prompt".data

/-- `prompt.BuildAdjudicatorMessages` — the judge's message list, built from
the material and both Phase-1 full arguments (never the one-liners). -/
def BuildAdjudicatorMessages (material proArgument conArgument : Str) : List Msg :=
  let userContent :=
    "**输入数据：**\n\n**【原始材料】**：\n".data ++ material ++
    "\n\n**【正方观点】**：\n".data ++ proArgument ++
    "\n\n**【反方观点】**：\n".data ++ conArgument
  [{ role := "system".data, content := AdjudicatorSystemPrompt },
   { role := "user".data, content := userContent }]

instance exceptDecEq {ε α : Type} [DecidableEq ε] [DecidableEq α] :
    DecidableEq (Except ε α) := fun x y =>
  match x, y with
  | Except.ok a, Except.ok b =>
    if h : a = b then isTrue (by rw [h])
    else isFalse (by intro he; cases he; exact h rfl)
  | Except.error a, Except.error b =>
    if h : a = b then isTrue (by rw [h])
    else isFalse (by intro he; cases he; exact h rfl)
  | Except.ok _, Except.error _ => isFalse (by intro he; cases he)
  | Except.error _, Except.ok _ => isFalse (by intro he; cases he)

/-- One role's `GenerationSession` behaviour for a run, supplied as an oracle:
whether `llm.NewClient` succeeds (and the error text when not), the chunk
sequence `ChatStream` delivers to the callback before returning, whether
`ChatStream` returns a non-nil error (and its text), and the result of the
blocking `Chat` call. -/
structure RoleSession where
  createOk : Bool
  createErrMsg : Str
  chunks : List Str
  streamErr : Bool
  streamErrMsg : Str
  chatRes : Except Str Str
deriving Repr, DecidableEq

/-- Feed a chunk sequence through a role's parser, recording the headline
events emitted by the `if found` branch of the per-chunk callback. -/
def feedEvents (r : Role) (p : StreamParser) : List Str → StreamParser × List Event
  | [] => (p, [])
  | c :: cs =>
    let x := feed p c
    let rest := feedEvents r x.1 cs
    (rest.1, (if x.2.2 then [Event.headline r x.2.1] else []) ++ rest.2)

/-- What one Phase-1 goroutine leaves behind: the callback invocations on its
Event Sink, the one-liner and full body it stores into `Result`, and the
role's error variable (`proErr` / `conErr`). -/
structure TaskOut where
  events : List Event
  oneLiner : Str
  fullBody : Str
  err : Option GoError
deriving Repr, DecidableEq

/-- One Phase-1 goroutine of `Execute` (`executor.go` lines 72–116 for Pro,
119–156 for Con; the two bodies are textually parallel).  On client-creation
failure the goroutine returns at once — before the `("", true)` completion
call.  In the streaming branch the parser runs over the chunks, the result
fields are recorded with the empty-body fallback, the completion event fires,
and a stream error is wrapped with the role name.  In the non-streaming
branch a successful `Chat` result is fed to the parser once; a `Chat` error
is stored unwrapped (the wrap after the branch reads the outer, shadowed-off,
`err`, which is nil there). -/
def phase1Task (r : Role) (streamMode hasCb : Bool) (s : RoleSession) : TaskOut :=
  if s.createOk = false then
    { events := [], oneLiner := [], fullBody := [],
      err := some (GoError.createClient r s.createErrMsg) }
  else if streamMode && hasCb then
    let fe := feedEvents r (NewStreamParser argMarker) s.chunks
    let p := finalize fe.1
    let fb := if p.fullBody = [] then p.buffer else p.fullBody
    { events := fe.2 ++ [Event.done r], oneLiner := p.oneLiner, fullBody := fb,
      err := if s.streamErr then some (GoError.roleWrapped r s.streamErrMsg)
             else none }
  else
    match s.chatRes with
    | Except.ok full =>
      let p := finalize (feed (NewStreamParser argMarker) full).1
      { events := [], oneLiner := p.oneLiner, fullBody := p.fullBody,
        err := none }
    | Except.error msg =>
      { events := [], oneLiner := [], fullBody := [],
        err := some (GoError.plain msg) }

/-- The `Result` struct (report path omitted: persistence is the non-fatal
collaborator and no claim mentions it). -/
structure DebateResult where
  material : Str
  proOneLiner : Str
  proFullBody : Str
  conOneLiner : Str
  conFullBody : Str
  verdictOneLiner : Str
  verdictFullBody : Str
deriving Repr, DecidableEq

/-- What one `Execute` run produces: the per-role Event-Sink traces (each
sink is a distinct callback; cross-role interleaving is not modelled because
no claim depends on it), whether the judge-start notification fired, the
message list handed to the judge session (`none` when that session was never
run), and the mutually referenced result/error pair. -/
structure ExecOut where
  proEvents : List Event
  conEvents : List Event
  judgeEvents : List Event
  judgeStartFired : Bool
  judgeMessages : Option (List Msg)
  result : Option DebateResult
  err : Option GoError
deriving Repr, DecidableEq

/-- The inputs of one `Execute(ctx, material)` call: the material, the
streaming flag, which callbacks are non-nil, and the three sessions'
behaviour. -/
structure ExecInput where
  material : Str
  stream : Bool
  hasOnPro : Bool
  hasOnCon : Bool
  hasOnJudge : Bool
  hasOnJudgeStart : Bool
  pro : RoleSession
  con : RoleSession
  judge : RoleSession
deriving Repr, DecidableEq

/-- `Executor.Execute` (`executor.go` lines 59–217).  Both Phase-1 goroutines
run to completion before `wg.Wait()` returns; then `proErr` is tested before
`conErr`; then the judge-start callback fires, the judge client is created,
the judge messages are built from the recorded full bodies, and the judge
session runs.  In the streaming judge branch the `ChatStream` error is
discarded (`_, _ =` on line 183), so the run still returns a `Result`; in
the non-streaming branch a `Chat` error is wrapped with `"adjudicator: "`
and aborts the run.  The report-saving step is non-fatal and not modelled. -/
def Execute (inp : ExecInput) : ExecOut :=
  let proT := phase1Task Role.pro inp.stream inp.hasOnPro inp.pro
  let conT := phase1Task Role.con inp.stream inp.hasOnCon inp.con
  match proT.err with
  | some e =>
    { proEvents := proT.events, conEvents := conT.events, judgeEvents := [],
      judgeStartFired := false, judgeMessages := none, result := none,
      err := some e }
  | none =>
  match conT.err with
  | some e =>
    { proEvents := proT.events, conEvents := conT.events, judgeEvents := [],
      judgeStartFired := false, judgeMessages := none, result := none,
      err := some e }
  | none =>
    let fired := inp.hasOnJudgeStart
    if inp.judge.createOk = false then
      { proEvents := proT.events, conEvents := conT.events, judgeEvents := [],
        judgeStartFired := fired, judgeMessages := none, result := none,
        err := some (GoError.createClient Role.judge inp.judge.createErrMsg) }
    else
      let msgs := BuildAdjudicatorMessages inp.material proT.fullBody conT.fullBody
      if inp.stream && inp.hasOnJudge then
        let fe := feedEvents Role.judge (NewStreamParser verdictMarker) inp.judge.chunks
        let p := finalize fe.1
        let vfb := if p.fullBody = [] then p.buffer else p.fullBody
        { proEvents := proT.events, conEvents := conT.events,
          judgeEvents := fe.2 ++ [Event.done Role.judge],
          judgeStartFired := fired, judgeMessages := some msgs,
          result := some { material := inp.material,
                           proOneLiner := proT.oneLiner,
                           proFullBody := proT.fullBody,
                           conOneLiner := conT.oneLiner,
                           conFullBody := conT.fullBody,
                           verdictOneLiner := p.oneLiner,
                           verdictFullBody := vfb },
          err := none }
      else
        match inp.judge.chatRes with
        | Except.ok full =>
          let p := finalize (feed (NewStreamParser verdictMarker) full).1
          { proEvents := proT.events, conEvents := conT.events,
            judgeEvents := [], judgeStartFired := fired,
            judgeMessages := some msgs,
            result := some { material := inp.material,
                             proOneLiner := proT.oneLiner,
                             proFullBody := proT.fullBody,
                             conOneLiner := conT.oneLiner,
                             conFullBody := conT.fullBody,
                             verdictOneLiner := p.oneLiner,
                             verdictFullBody := p.fullBody },
            err := none }
        | Except.error msg =>
          { proEvents := proT.events, conEvents := conT.events,
            judgeEvents := [], judgeStartFired := fired,
            judgeMessages := some msgs, result := none,
            err := some (GoError.roleWrapped Role.judge msg) }

theorem feedEvents_count_done (r q : Role) (p : StreamParser) (cs : List Str) :
    ((feedEvents r p cs).2).count (Event.done q) = 0 := by
  induction cs generalizing p with
  | nil => rfl
  | cons c cs ih =>
    simp only [feedEvents]
    by_cases h : (feed p c).2.2 = true <;>
      simp [h, List.count_append, ih, List.count_cons]

theorem Execute_pro_err (inp : ExecInput) (e : GoError)
    (hp : (phase1Task Role.pro inp.stream inp.hasOnPro inp.pro).err = some e) :
    Execute inp =
      { proEvents := (phase1Task Role.pro inp.stream inp.hasOnPro inp.pro).events,
        conEvents := (phase1Task Role.con inp.stream inp.hasOnCon inp.con).events,
        judgeEvents := [], judgeStartFired := false, judgeMessages := none,
        result := none, err := some e } := by
  simp only [Execute]
  rw [hp]

theorem Execute_con_err (inp : ExecInput) (e : GoError)
    (hp : (phase1Task Role.pro inp.stream inp.hasOnPro inp.pro).err = none)
    (hc : (phase1Task Role.con inp.stream inp.hasOnCon inp.con).err = some e) :
    Execute inp =
      { proEvents := (phase1Task Role.pro inp.stream inp.hasOnPro inp.pro).events,
        conEvents := (phase1Task Role.con inp.stream inp.hasOnCon inp.con).events,
        judgeEvents := [], judgeStartFired := false, judgeMessages := none,
        result := none, err := some e } := by
  simp only [Execute]
  rw [hp, hc]

theorem Execute_judge_create_err (inp : ExecInput)
    (hp : (phase1Task Role.pro inp.stream inp.hasOnPro inp.pro).err = none)
    (hc : (phase1Task Role.con inp.stream inp.hasOnCon inp.con).err = none)
    (hj : inp.judge.createOk = false) :
    Execute inp =
      { proEvents := (phase1Task Role.pro inp.stream inp.hasOnPro inp.pro).events,
        conEvents := (phase1Task Role.con inp.stream inp.hasOnCon inp.con).events,
        judgeEvents := [], judgeStartFired := inp.hasOnJudgeStart,
        judgeMessages := none, result := none,
        err := some (GoError.createClient Role.judge inp.judge.createErrMsg) } := by
  simp only [Execute]
  rw [hp, hc]
  simp [hj]

theorem Execute_stream_judge (inp : ExecInput)
    (hp : (phase1Task Role.pro inp.stream inp.hasOnPro inp.pro).err = none)
    (hc : (phase1Task Role.con inp.stream inp.hasOnCon inp.con).err = none)
    (hj : inp.judge.createOk = true)
    (hs : (inp.stream && inp.hasOnJudge) = true) :
    Execute inp =
      { proEvents := (phase1Task Role.pro inp.stream inp.hasOnPro inp.pro).events,
        conEvents := (phase1Task Role.con inp.stream inp.hasOnCon inp.con).events,
        judgeEvents :=
          (feedEvents Role.judge (NewStreamParser verdictMarker)
            inp.judge.chunks).2 ++ [Event.done Role.judge],
        judgeStartFired := inp.hasOnJudgeStart,
        judgeMessages := some (BuildAdjudicatorMessages inp.material
          (phase1Task Role.pro inp.stream inp.hasOnPro inp.pro).fullBody
          (phase1Task Role.con inp.stream inp.hasOnCon inp.con).fullBody),
        result := some
          { material := inp.material,
            proOneLiner := (phase1Task Role.pro inp.stream inp.hasOnPro inp.pro).oneLiner,
            proFullBody := (phase1Task Role.pro inp.stream inp.hasOnPro inp.pro).fullBody,
            conOneLiner := (phase1Task Role.con inp.stream inp.hasOnCon inp.con).oneLiner,
            conFullBody := (phase1Task Role.con inp.stream inp.hasOnCon inp.con).fullBody,
            verdictOneLiner :=
              (finalize (feedEvents Role.judge (NewStreamParser verdictMarker)
                inp.judge.chunks).1).oneLiner,
            verdictFullBody :=
              if (finalize (feedEvents Role.judge (NewStreamParser verdictMarker)
                    inp.judge.chunks).1).fullBody = []
              then (finalize (feedEvents Role.judge (NewStreamParser verdictMarker)
                    inp.judge.chunks).1).buffer
              else (finalize (feedEvents Role.judge (NewStreamParser verdictMarker)
                    inp.judge.chunks).1).fullBody },
        err := none } := by
  simp only [Execute]
  rw [hp, hc]
  simp [hj, hs]

theorem Execute_chat_judge_ok (inp : ExecInput) (full : Str)
    (hp : (phase1Task Role.pro inp.stream inp.hasOnPro inp.pro).err = none)
    (hc : (phase1Task Role.con inp.stream inp.hasOnCon inp.con).err = none)
    (hj : inp.judge.createOk = true)
    (hs : (inp.stream && inp.hasOnJudge) = false)
    (hr : inp.judge.chatRes = Except.ok full) :
    Execute inp =
      { proEvents := (phase1Task Role.pro inp.stream inp.hasOnPro inp.pro).events,
        conEvents := (phase1Task Role.con inp.stream inp.hasOnCon inp.con).events,
        judgeEvents := [], judgeStartFired := inp.hasOnJudgeStart,
        judgeMessages := some (BuildAdjudicatorMessages inp.material
          (phase1Task Role.pro inp.stream inp.hasOnPro inp.pro).fullBody
          (phase1Task Role.con inp.stream inp.hasOnCon inp.con).fullBody),
        result := some
          { material := inp.material,
            proOneLiner := (phase1Task Role.pro inp.stream inp.hasOnPro inp.pro).oneLiner,
            proFullBody := (phase1Task Role.pro inp.stream inp.hasOnPro inp.pro).fullBody,
            conOneLiner := (phase1Task Role.con inp.stream inp.hasOnCon inp.con).oneLiner,
            conFullBody := (phase1Task Role.con inp.stream inp.hasOnCon inp.con).fullBody,
            verdictOneLiner :=
              (finalize (feed (NewStreamParser verdictMarker) full).1).oneLiner,
            verdictFullBody :=
              (finalize (feed (NewStreamParser verdictMarker) full).1).fullBody },
        err := none } := by
  simp only [Execute]
  rw [hp, hc]
  simp [hj, hs, hr]

theorem Execute_chat_judge_err (inp : ExecInput) (msg : Str)
    (hp : (phase1Task Role.pro inp.stream inp.hasOnPro inp.pro).err = none)
    (hc : (phase1Task Role.con inp.stream inp.hasOnCon inp.con).err = none)
    (hj : inp.judge.createOk = true)
    (hs : (inp.stream && inp.hasOnJudge) = false)
    (hr : inp.judge.chatRes = Except.error msg) :
    Execute inp =
      { proEvents := (phase1Task Role.pro inp.stream inp.hasOnPro inp.pro).events,
        conEvents := (phase1Task Role.con inp.stream inp.hasOnCon inp.con).events,
        judgeEvents := [], judgeStartFired := inp.hasOnJudgeStart,
        judgeMessages := some (BuildAdjudicatorMessages inp.material
          (phase1Task Role.pro inp.stream inp.hasOnPro inp.pro).fullBody
          (phase1Task Role.con inp.stream inp.hasOnCon inp.con).fullBody),
        result := none,
        err := some (GoError.roleWrapped Role.judge msg) } := by
  simp only [Execute]
  rw [hp, hc]
  simp [hj, hs, hr]

/-- A session whose client construction fails (e.g. missing credential). -/
def sessionNoKey : RoleSession :=
  { createOk := false, createErrMsg := "missing api key".data, chunks := [],
    streamErr := false, streamErrMsg := [],
    chatRes := Except.error "missing api key".data }

/-- A session that streams one chunk and succeeds. -/
def sessionOkOneChunk : RoleSession :=
  { createOk := true, createErrMsg := [], chunks := ["x".data],
    streamErr := false, streamErrMsg := [], chatRes := Except.ok "x".data }

/-- A session whose `ChatStream` delivers one chunk and then returns an
error. -/
def sessionStreamFail : RoleSession :=
  { createOk := true, createErrMsg := [], chunks := ["x".data],
    streamErr := true, streamErrMsg := "boom".data, chatRes := Except.ok [] }

/-- A session whose blocking `Chat` fails. -/
def sessionChatFail : RoleSession :=
  { createOk := true, createErrMsg := [], chunks := [],
    streamErr := false, streamErrMsg := [],
    chatRes := Except.error "boom".data }

/-- A streaming run in which both Phase-1 sessions succeed and the judge's
`ChatStream` returns an error. -/
def inStreamJudgeFail : ExecInput :=
  { material := "m".data, stream := true, hasOnPro := true, hasOnCon := true,
    hasOnJudge := true, hasOnJudgeStart := true,
    pro := sessionOkOneChunk, con := sessionOkOneChunk,
    judge := sessionStreamFail }

/-- C1 counterexample: in streaming mode a Phase-2 judge session error does
not make `Execute` fail — the error is discarded (`_, _ =` on line 183 of
`executor.go`) and a `Result` is returned, so "whenever any phase fails …
Execute returns a non-nil error and a nil Result" is false. -/
theorem C1_phase2_stream_error_discarded_counterexample :
    inStreamJudgeFail.stream = true
    ∧ inStreamJudgeFail.judge.streamErr = true
    ∧ (Execute inStreamJudgeFail).err = none
    ∧ (Execute inStreamJudgeFail).result.isSome = true := by
  decide

/-- C1 (amended): error and result are mutually exclusive outcomes on every
path, and every failing phase aborts the run with a non-nil error and a nil
result — except a Phase-2 judge session error in streaming mode, which the
code discards, returning a `Result` and no error. -/
theorem C1_error_result_exclusive_amended (inp : ExecInput) :
    ((Execute inp).result.isSome ↔ (Execute inp).err = none)
    ∧ ((phase1Task Role.pro inp.stream inp.hasOnPro inp.pro).err ≠ none →
        (Execute inp).err ≠ none)
    ∧ ((phase1Task Role.con inp.stream inp.hasOnCon inp.con).err ≠ none →
        (Execute inp).err ≠ none)
    ∧ (inp.judge.createOk = false → (Execute inp).err ≠ none)
    ∧ (∀ msg, (phase1Task Role.pro inp.stream inp.hasOnPro inp.pro).err = none →
        (phase1Task Role.con inp.stream inp.hasOnCon inp.con).err = none →
        inp.judge.createOk = true → (inp.stream && inp.hasOnJudge) = false →
        inp.judge.chatRes = Except.error msg →
        (Execute inp).err = some (GoError.roleWrapped Role.judge msg))
    ∧ ((phase1Task Role.pro inp.stream inp.hasOnPro inp.pro).err = none →
        (phase1Task Role.con inp.stream inp.hasOnCon inp.con).err = none →
        inp.judge.createOk = true → (inp.stream && inp.hasOnJudge) = true →
        (Execute inp).err = none ∧ (Execute inp).result.isSome = true) := by
  cases hp : (phase1Task Role.pro inp.stream inp.hasOnPro inp.pro).err with
  | some e =>
    rw [Execute_pro_err inp e hp]
    refine ⟨by simp, by simp, by simp, by simp, ?_, ?_⟩
    · intro msg h1
      exact Option.noConfusion h1
    · intro h1
      exact Option.noConfusion h1
  | none =>
    cases hc : (phase1Task Role.con inp.stream inp.hasOnCon inp.con).err with
    | some e =>
      rw [Execute_con_err inp e hp hc]
      refine ⟨by simp, by simp, by simp, by simp, ?_, ?_⟩
      · intro msg _ h2
        exact Option.noConfusion h2
      · intro _ h2
        exact Option.noConfusion h2
    | none =>
      by_cases hj : inp.judge.createOk = false
      · rw [Execute_judge_create_err inp hp hc hj]
        refine ⟨by simp, by simp, by simp, by simp, ?_, ?_⟩
        · intro msg _ _ hj2 _ _
          rw [hj2] at hj
          exact Bool.noConfusion hj
        · intro _ _ hj2 _
          rw [hj2] at hj
          exact Bool.noConfusion hj
      · have hj2 : inp.judge.createOk = true := by
          revert hj; cases inp.judge.createOk <;> simp
        by_cases hs : (inp.stream && inp.hasOnJudge) = true
        · rw [Execute_stream_judge inp hp hc hj2 hs]
          refine ⟨by simp, ?_, ?_, ?_, ?_, ?_⟩
          · intro h1; exact absurd rfl h1
          · intro h1; exact absurd rfl h1
          · intro h1; rw [h1] at hj2; exact Bool.noConfusion hj2
          · intro msg _ _ _ hsf _
            rw [hs] at hsf
            exact Bool.noConfusion hsf
          · intro _ _ _ _
            exact ⟨rfl, by simp⟩
        · have hs2 : (inp.stream && inp.hasOnJudge) = false := by
            revert hs; cases (inp.stream && inp.hasOnJudge) <;> simp
          cases hr : inp.judge.chatRes with
          | ok full =>
            rw [Execute_chat_judge_ok inp full hp hc hj2 hs2 hr]
            refine ⟨by simp, ?_, ?_, ?_, ?_, ?_⟩
            · intro h1; exact absurd rfl h1
            · intro h1; exact absurd rfl h1
            · intro h1; rw [h1] at hj2; exact Bool.noConfusion hj2
            · intro msg _ _ _ _ hr2
              exact Except.noConfusion hr2
            · intro _ _ _ hst
              rw [hst] at hs2
              exact Bool.noConfusion hs2
          | error msg0 =>
            rw [Execute_chat_judge_err inp msg0 hp hc hj2 hs2 hr]
            refine ⟨by simp, by simp, by simp, by simp, ?_, ?_⟩
            · intro msg _ _ _ _ hr2
              have h3 : msg0 = msg := Except.error.inj hr2
              simp [h3]
            · intro _ _ _ hst
              rw [hst] at hs2
              exact Bool.noConfusion hs2

theorem C1_error_result_exclusive_amended_witness :
    ((phase1Task Role.pro inStreamJudgeFail.stream inStreamJudgeFail.hasOnPro
        inStreamJudgeFail.pro).err = none
      ∧ (phase1Task Role.con inStreamJudgeFail.stream inStreamJudgeFail.hasOnCon
        inStreamJudgeFail.con).err = none
      ∧ inStreamJudgeFail.judge.createOk = true
      ∧ (inStreamJudgeFail.stream && inStreamJudgeFail.hasOnJudge) = true)
    ∧ ((Execute inStreamJudgeFail).err = none
        ∧ (Execute inStreamJudgeFail).result.isSome = true) :=
  ⟨⟨by decide, by decide, by decide, by decide⟩,
   (C1_error_result_exclusive_amended inStreamJudgeFail).2.2.2.2.2
     (by decide) (by decide) (by decide) (by decide)⟩

/-- A streaming run in which both Phase-1 client constructions fail. -/
def inBothPhase1Fail : ExecInput :=
  { material := "m".data, stream := true, hasOnPro := true, hasOnCon := true,
    hasOnJudge := true, hasOnJudgeStart := true,
    pro := sessionNoKey, con := sessionNoKey, judge := sessionOkOneChunk }

/-- C2: a Pro error is held until the join point: Con's full event trace is
still produced (and ends in its completion event when Con streams
successfully), `Execute` then returns the Pro error — also when Con failed
too — with no `Result`, and Phase 2 never starts (no judge-start
notification, no judge messages, no judge events). -/
theorem C2_pro_error_con_completes_no_phase2 (inp : ExecInput) (e : GoError)
    (hp : (phase1Task Role.pro inp.stream inp.hasOnPro inp.pro).err = some e) :
    (Execute inp).err = some e
    ∧ (Execute inp).result = none
    ∧ (Execute inp).judgeStartFired = false
    ∧ (Execute inp).judgeMessages = none
    ∧ (Execute inp).judgeEvents = []
    ∧ (Execute inp).conEvents
        = (phase1Task Role.con inp.stream inp.hasOnCon inp.con).events
    ∧ (inp.stream = true → inp.hasOnCon = true → inp.con.createOk = true →
        ((Execute inp).conEvents).count (Event.done Role.con) = 1) := by
  rw [Execute_pro_err inp e hp]
  refine ⟨rfl, rfl, rfl, rfl, rfl, rfl, ?_⟩
  intro hs hccb hok
  simp only [phase1Task, hok, hs, hccb]
  simp [List.count_append, feedEvents_count_done, List.count_cons]

theorem C2_pro_error_con_completes_no_phase2_witness :
    (phase1Task Role.pro inBothPhase1Fail.stream inBothPhase1Fail.hasOnPro
        inBothPhase1Fail.pro).err
      = some (GoError.createClient Role.pro "missing api key".data)
    ∧ ((Execute inBothPhase1Fail).err
        = some (GoError.createClient Role.pro "missing api key".data)
      ∧ (Execute inBothPhase1Fail).result = none) :=
  ⟨by decide,
   ⟨(C2_pro_error_con_completes_no_phase2 inBothPhase1Fail
      (GoError.createClient Role.pro "missing api key".data) (by decide)).1,
    (C2_pro_error_con_completes_no_phase2 inBothPhase1Fail
      (GoError.createClient Role.pro "missing api key".data) (by decide)).2.1⟩⟩

theorem Execute_proEvents (inp : ExecInput) :
    (Execute inp).proEvents
      = (phase1Task Role.pro inp.stream inp.hasOnPro inp.pro).events := by
  simp only [Execute]
  repeat' split
  all_goals rfl

theorem Execute_conEvents (inp : ExecInput) :
    (Execute inp).conEvents
      = (phase1Task Role.con inp.stream inp.hasOnCon inp.con).events := by
  simp only [Execute]
  repeat' split
  all_goals rfl

/-- A streaming run in which the Pro client construction fails while the
other two sessions are healthy. -/
def inProCreateFail : ExecInput :=
  { material := "m".data, stream := true, hasOnPro := true, hasOnCon := true,
    hasOnJudge := true, hasOnJudgeStart := true,
    pro := sessionNoKey, con := sessionOkOneChunk, judge := sessionOkOneChunk }

/-- C3 counterexample: when a role's session construction fails the goroutine
returns before the `("", true)` completion call (`executor.go` line 77), so
on that termination path no role-completion event at all reaches the Pro
Event Sink — the claim's "every termination path including session
construction failure" is false. -/
theorem C3_no_completion_event_on_create_fail_counterexample :
    inProCreateFail.stream = true
    ∧ inProCreateFail.hasOnPro = true
    ∧ (Execute inProCreateFail).proEvents = [] := by
  decide

/-- C3 (amended): in a streaming-mode run with the role's callback set,
exactly one completion event is emitted to a role's Event Sink whenever the
role's session was successfully constructed — independent of whether a
headline was found and also on a stream error — but when session
construction fails, the goroutine returns early and no completion event is
emitted. -/
theorem C3_completion_event_amended (inp : ExecInput)
    (hs : inp.stream = true) :
    (inp.hasOnPro = true → inp.pro.createOk = true →
      ((Execute inp).proEvents).count (Event.done Role.pro) = 1)
    ∧ (inp.hasOnPro = true → inp.pro.createOk = false →
      (Execute inp).proEvents = [])
    ∧ (inp.hasOnCon = true → inp.con.createOk = true →
      ((Execute inp).conEvents).count (Event.done Role.con) = 1)
    ∧ (inp.hasOnCon = true → inp.con.createOk = false →
      (Execute inp).conEvents = [])
    ∧ ((phase1Task Role.pro inp.stream inp.hasOnPro inp.pro).err = none →
       (phase1Task Role.con inp.stream inp.hasOnCon inp.con).err = none →
       inp.judge.createOk = true → inp.hasOnJudge = true →
       ((Execute inp).judgeEvents).count (Event.done Role.judge) = 1) := by
  refine ⟨?_, ?_, ?_, ?_, ?_⟩
  · intro hcb hok
    rw [Execute_proEvents]
    simp only [phase1Task, hok, hs, hcb]
    simp [List.count_append, feedEvents_count_done, List.count_cons]
  · intro hcb hko
    rw [Execute_proEvents]
    simp [phase1Task, hko]
  · intro hcb hok
    rw [Execute_conEvents]
    simp only [phase1Task, hok, hs, hcb]
    simp [List.count_append, feedEvents_count_done, List.count_cons]
  · intro hcb hko
    rw [Execute_conEvents]
    simp [phase1Task, hko]
  · intro hp hc hj hcb
    have hsj : (inp.stream && inp.hasOnJudge) = true := by rw [hs, hcb]; rfl
    rw [Execute_stream_judge inp hp hc hj hsj]
    simp [List.count_append, feedEvents_count_done, List.count_cons]

theorem C3_completion_event_amended_witness :
    (inProCreateFail.stream = true
      ∧ inProCreateFail.hasOnPro = true
      ∧ inProCreateFail.pro.createOk = false)
    ∧ (Execute inProCreateFail).proEvents = [] :=
  ⟨⟨by decide, by decide, by decide⟩,
   (C3_completion_event_amended inProCreateFail (by decide)).2.1
     (by decide) (by decide)⟩

/-- A non-streaming run in which the Pro `Chat` call fails. -/
def inChatProFail : ExecInput :=
  { material := "m".data, stream := false, hasOnPro := false,
    hasOnCon := false, hasOnJudge := false, hasOnJudgeStart := false,
    pro := sessionChatFail, con := sessionOkOneChunk,
    judge := sessionOkOneChunk }

/-- C4 counterexample: in non-streaming mode a Pro `Chat` error comes back
without the `"affirmative: "` prefix — inside the `else` branch
`full, err := client.Chat(...)` declares a fresh `err`, so the wrapping
`if err != nil` after the branch reads the outer `err`, which is nil there
(`executor.go` lines 103–115). -/
theorem C4_nonstream_error_unwrapped_counterexample :
    inChatProFail.stream = false
    ∧ inChatProFail.pro.chatRes = Except.error "boom".data
    ∧ (Execute inChatProFail).err = some (GoError.plain "boom".data)
    ∧ renderErr (GoError.plain "boom".data) = "boom".data
    ∧ begMatch "affirmative: ".data
        (renderErr (GoError.plain "boom".data)) = false := by
  decide

theorem containsSub_self_append (pat t : Str) :
    containsSub pat (pat ++ t) = true := by
  cases pat with
  | nil => exact containsSub_nil_pat _
  | cons c rest =>
    have h1 : begMatch (c :: rest) ((c :: rest) ++ t) = true :=
      begMatch_self_append _ _
    rw [List.cons_append] at h1
    simp only [List.cons_append, List.append_eq, containsSub]
    rw [h1]
    simp

theorem containsSub_self (pat : Str) : containsSub pat pat = true := by
  have := containsSub_self_append pat []
  rwa [List.append_nil] at this

theorem containsSub_append_left {pat t : Str} (s : Str)
    (h : containsSub pat t = true) : containsSub pat (s ++ t) = true := by
  induction s with
  | nil => simpa
  | cons c cs ih =>
    simp only [List.cons_append, List.append_eq, containsSub]
    rw [ih]
    simp

/-- C4 (amended): a mid-call GenerationSession error is wrapped with the
role's name and fatal exactly for the Pro/Con streaming path and the Judge
non-streaming path; a Pro/Con non-streaming `Chat` error is fatal but
returned unwrapped (the wrap step reads a shadowed-off, nil `err`), and a
Judge streaming error is discarded entirely.  Wrapped errors render with the
role-name prefix. -/
theorem C4_role_wrapping_amended (inp : ExecInput) :
    ((inp.stream && inp.hasOnPro) = true → inp.pro.createOk = true →
      inp.pro.streamErr = true →
      (Execute inp).err
        = some (GoError.roleWrapped Role.pro inp.pro.streamErrMsg))
    ∧ ((phase1Task Role.pro inp.stream inp.hasOnPro inp.pro).err = none →
       (inp.stream && inp.hasOnCon) = true → inp.con.createOk = true →
       inp.con.streamErr = true →
       (Execute inp).err
         = some (GoError.roleWrapped Role.con inp.con.streamErrMsg))
    ∧ (∀ msg, (phase1Task Role.pro inp.stream inp.hasOnPro inp.pro).err = none →
       (phase1Task Role.con inp.stream inp.hasOnCon inp.con).err = none →
       inp.judge.createOk = true → (inp.stream && inp.hasOnJudge) = false →
       inp.judge.chatRes = Except.error msg →
       (Execute inp).err = some (GoError.roleWrapped Role.judge msg))
    ∧ (∀ msg, (inp.stream && inp.hasOnPro) = false → inp.pro.createOk = true →
       inp.pro.chatRes = Except.error msg →
       (Execute inp).err = some (GoError.plain msg))
    ∧ (∀ msg, (phase1Task Role.pro inp.stream inp.hasOnPro inp.pro).err = none →
       (inp.stream && inp.hasOnCon) = false → inp.con.createOk = true →
       inp.con.chatRes = Except.error msg →
       (Execute inp).err = some (GoError.plain msg))
    ∧ ((phase1Task Role.pro inp.stream inp.hasOnPro inp.pro).err = none →
       (phase1Task Role.con inp.stream inp.hasOnCon inp.con).err = none →
       inp.judge.createOk = true → (inp.stream && inp.hasOnJudge) = true →
       (Execute inp).err = none)
    ∧ (∀ r i, begMatch (roleName r ++ ": ".data)
        (renderErr (GoError.roleWrapped r i)) = true) := by
  refine ⟨?_, ?_, ?_, ?_, ?_, ?_, ?_⟩
  · intro hcb hok herr
    have hperr : (phase1Task Role.pro inp.stream inp.hasOnPro inp.pro).err
        = some (GoError.roleWrapped Role.pro inp.pro.streamErrMsg) := by
      simp [phase1Task, hok, hcb, herr]
    rw [Execute_pro_err inp _ hperr]
  · intro hp hcb hok herr
    have hcerr : (phase1Task Role.con inp.stream inp.hasOnCon inp.con).err
        = some (GoError.roleWrapped Role.con inp.con.streamErrMsg) := by
      simp [phase1Task, hok, hcb, herr]
    rw [Execute_con_err inp _ hp hcerr]
  · intro msg hp hc hj hsf hr
    rw [Execute_chat_judge_err inp msg hp hc hj hsf hr]
  · intro msg hsf hok hr
    have hperr : (phase1Task Role.pro inp.stream inp.hasOnPro inp.pro).err
        = some (GoError.plain msg) := by
      simp [phase1Task, hok, hsf, hr]
    rw [Execute_pro_err inp _ hperr]
  · intro msg hp hsf hok hr
    have hcerr : (phase1Task Role.con inp.stream inp.hasOnCon inp.con).err
        = some (GoError.plain msg) := by
      simp [phase1Task, hok, hsf, hr]
    rw [Execute_con_err inp _ hp hcerr]
  · intro hp hc hj hst
    rw [Execute_stream_judge inp hp hc hj hst]
  · intro r i
    exact begMatch_self_append _ _

theorem C4_role_wrapping_amended_witness :
    ((inStreamJudgeFail.stream && inStreamJudgeFail.hasOnPro) = true
      ∧ inStreamJudgeFail.pro.createOk = true
      ∧ inChatProFail.pro.chatRes = Except.error "boom".data)
    ∧ (Execute inChatProFail).err = some (GoError.plain "boom".data) :=
  ⟨⟨by decide, by decide, by decide⟩,
   (C4_role_wrapping_amended inChatProFail).2.2.2.1 "boom".data
     (by decide) (by decide) (by decide)⟩

/-- C7: when Phase 1 succeeds and the judge client is created, the judge
session is run with exactly the message list
`BuildAdjudicatorMessages material proFullBody conFullBody`, where those are
the Phase-1 full bodies recorded in any returned `Result`; the user message
textually contains both full bodies, and the one-liners are not inputs of
the construction. -/
theorem C7_judge_messages_use_full_bodies (inp : ExecInput)
    (hp : (phase1Task Role.pro inp.stream inp.hasOnPro inp.pro).err = none)
    (hc : (phase1Task Role.con inp.stream inp.hasOnCon inp.con).err = none)
    (hj : inp.judge.createOk = true) :
    ((Execute inp).judgeMessages
      = some (BuildAdjudicatorMessages inp.material
          (phase1Task Role.pro inp.stream inp.hasOnPro inp.pro).fullBody
          (phase1Task Role.con inp.stream inp.hasOnCon inp.con).fullBody))
    ∧ (∀ r, (Execute inp).result = some r →
        r.proFullBody = (phase1Task Role.pro inp.stream inp.hasOnPro inp.pro).fullBody
        ∧ r.conFullBody = (phase1Task Role.con inp.stream inp.hasOnCon inp.con).fullBody)
    ∧ (∃ uc, BuildAdjudicatorMessages inp.material
          (phase1Task Role.pro inp.stream inp.hasOnPro inp.pro).fullBody
          (phase1Task Role.con inp.stream inp.hasOnCon inp.con).fullBody
        = [{ role := "system".data, content := AdjudicatorSystemPrompt },
           { role := "user".data, content := uc }]
        ∧ containsSub
            (phase1Task Role.pro inp.stream inp.hasOnPro inp.pro).fullBody uc = true
        ∧ containsSub
            (phase1Task Role.con inp.stream inp.hasOnCon inp.con).fullBody uc = true) := by
  refine ⟨?_, ?_, ?_⟩
  · by_cases hst : (inp.stream && inp.hasOnJudge) = true
    · rw [Execute_stream_judge inp hp hc hj hst]
    · have hsf : (inp.stream && inp.hasOnJudge) = false := by
        revert hst; cases (inp.stream && inp.hasOnJudge) <;> simp
      cases hr : inp.judge.chatRes with
      | ok full => rw [Execute_chat_judge_ok inp full hp hc hj hsf hr]
      | error msg => rw [Execute_chat_judge_err inp msg hp hc hj hsf hr]
  · intro r hr
    by_cases hst : (inp.stream && inp.hasOnJudge) = true
    · rw [Execute_stream_judge inp hp hc hj hst] at hr
      simp only [Option.some.injEq] at hr
      rw [← hr]
      exact ⟨rfl, rfl⟩
    · have hsf : (inp.stream && inp.hasOnJudge) = false := by
        revert hst; cases (inp.stream && inp.hasOnJudge) <;> simp
      cases hq : inp.judge.chatRes with
      | ok full =>
        rw [Execute_chat_judge_ok inp full hp hc hj hsf hq] at hr
        simp only [Option.some.injEq] at hr
        rw [← hr]
        exact ⟨rfl, rfl⟩
      | error msg =>
        rw [Execute_chat_judge_err inp msg hp hc hj hsf hq] at hr
        exact Option.noConfusion hr
  · refine ⟨"**输入数据：**\n\n**【原始材料】**：\n".data ++ inp.material ++
      "\n\n**【正方观点】**：\n".data ++
      (phase1Task Role.pro inp.stream inp.hasOnPro inp.pro).fullBody ++
      "\n\n**【反方观点】**：\n".data ++
      (phase1Task Role.con inp.stream inp.hasOnCon inp.con).fullBody,
      rfl, ?_, ?_⟩
    · simp only [List.append_assoc]
      exact containsSub_append_left _ (containsSub_append_left _
        (containsSub_append_left _ (containsSub_self_append _ _)))
    · simp only [List.append_assoc]
      exact containsSub_append_left _ (containsSub_append_left _
        (containsSub_append_left _ (containsSub_append_left _
          (containsSub_append_left _ (containsSub_self _)))))

theorem C7_judge_messages_use_full_bodies_witness :
    ((phase1Task Role.pro inStreamJudgeFail.stream inStreamJudgeFail.hasOnPro
        inStreamJudgeFail.pro).err = none
      ∧ (phase1Task Role.con inStreamJudgeFail.stream inStreamJudgeFail.hasOnCon
        inStreamJudgeFail.con).err = none
      ∧ inStreamJudgeFail.judge.createOk = true)
    ∧ (Execute inStreamJudgeFail).judgeMessages
        = some (BuildAdjudicatorMessages inStreamJudgeFail.material
            (phase1Task Role.pro inStreamJudgeFail.stream
              inStreamJudgeFail.hasOnPro inStreamJudgeFail.pro).fullBody
            (phase1Task Role.con inStreamJudgeFail.stream
              inStreamJudgeFail.hasOnCon inStreamJudgeFail.con).fullBody) :=
  ⟨⟨by decide, by decide, by decide⟩,
   (C7_judge_messages_use_full_bodies inStreamJudgeFail
      (by decide) (by decide) (by decide)).1⟩

/-! ### The DeepSeek / DashScope / Gemini clients (`internal/llm`) -/

/-- The SSE line prefix checked by `handleStream`
(`strings.HasPrefix(line, "data: ")`). -/
def dataTag : Str := "data: ".data

/-- The terminator payload (`if data == "[DONE]" { break }`). -/
def doneTag : Str := "[DONE]".data

/-- `DeepSeekClient.handleStream` (`deepseek.go` lines 127–157; the
DashScope client shares the identical loop).  The body is the list of lines
produced by `bufio.Scanner`; `parse` is the `json.Unmarshal` oracle mapping a
data payload to the `delta.content` of each choice, `none` on malformed
JSON.  Lines without the `data: ` prefix and malformed payloads are skipped
(`continue`); `[DONE]` stops the loop; otherwise the first choice's content
is appended to the builder and handed to the callback.  Returns the builder
content and the chunk list passed to the callback; the Go function always
returns a nil error. -/
def handleStreamGo (parse : Str → Option (List Str)) :
    List Str → Str → List Str → Str × List Str
  | [], acc, emitted => (acc, emitted)
  | line :: rest, acc, emitted =>
    if begMatch dataTag line then
      let data := line.drop dataTag.length
      if data = doneTag then (acc, emitted)
      else
        match parse data with
        | some (c :: _) => handleStreamGo parse rest (acc ++ c) (emitted ++ [c])
        | some [] => handleStreamGo parse rest acc emitted
        | none => handleStreamGo parse rest acc emitted
    else handleStreamGo parse rest acc emitted

/-- The chunk loop of `GeminiClient.ChatStream` (src/unnamed/part_005 lines
98–115): each extracted text is appended to the builder and handed to the
callback; an iterator error cuts the text list short but the same
accumulated string is returned. -/
def geminiStreamLoop : List Str → Str → List Str → Str × List Str
  | [], acc, emitted => (acc, emitted)
  | t :: ts, acc, emitted => geminiStreamLoop ts (acc ++ t) (emitted ++ [t])

theorem concatAll_append (xs ys : List Str) :
    concatAll (xs ++ ys) = concatAll xs ++ concatAll ys := by
  induction xs with
  | nil => simp [concatAll]
  | cons c cs ih => simp [concatAll, ih]

theorem handleStreamGo_invariant (parse : Str → Option (List Str))
    (lines : List Str) (acc : Str) (emitted : List Str)
    (h : acc = concatAll emitted) :
    (handleStreamGo parse lines acc emitted).1
      = concatAll (handleStreamGo parse lines acc emitted).2 := by
  induction lines generalizing acc emitted with
  | nil => simpa [handleStreamGo]
  | cons line rest ih =>
    simp only [handleStreamGo]
    by_cases hb : begMatch dataTag line = true
    · simp only [hb, if_true]
      by_cases hd : line.drop dataTag.length = doneTag
      · simpa [hd]
      · simp only [hd, if_false]
        cases hp : parse (line.drop dataTag.length) with
        | none => exact ih acc emitted h
        | some choices =>
          cases choices with
          | nil => exact ih acc emitted h
          | cons c cs =>
            refine ih (acc ++ c) (emitted ++ [c]) ?_
            rw [h, concatAll_append]
            simp [concatAll]
    · simp only [hb, Bool.false_eq_true, if_false]
      exact ih acc emitted h

theorem geminiStreamLoop_invariant (texts : List Str) (acc : Str)
    (emitted : List Str) (h : acc = concatAll emitted) :
    (geminiStreamLoop texts acc emitted).1
      = concatAll (geminiStreamLoop texts acc emitted).2 := by
  induction texts generalizing acc emitted with
  | nil => simpa [geminiStreamLoop]
  | cons t ts ih =>
    refine ih (acc ++ t) (emitted ++ [t]) ?_
    rw [h, concatAll_append]
    simp [concatAll]

/-- C8: for every streaming call, the string returned at stream end is the
concatenation, in delivery order, of exactly the chunks handed to the
per-chunk callback — for the `handleStream` loop shared by the DeepSeek and
DashScope clients (over any scanner line list and any `json.Unmarshal`
behaviour) and for the Gemini `ChatStream` chunk loop. -/
theorem C8_stream_returns_concat_of_callback_chunks
    (parse : Str → Option (List Str)) (lines texts : List Str) :
    (handleStreamGo parse lines [] []).1
      = concatAll (handleStreamGo parse lines [] []).2
    ∧ (geminiStreamLoop texts [] []).1
      = concatAll (geminiStreamLoop texts [] []).2 :=
  ⟨handleStreamGo_invariant parse lines [] [] rfl,
   geminiStreamLoop_invariant texts [] [] rfl⟩

/-- A decoded HTTP response as `chat` consumes it: the status code, the body
as scanner lines (streaming branch), and the `json.Decode` outcome of the
body as an `openAIResponse` — the message content of each choice, `none` on
a malformed payload (blocking branch). -/
structure HttpResp where
  status : Nat
  bodyLines : List Str
  decodedChoices : Option (List Str)
deriving Repr, DecidableEq

/-- The error classes of `DeepSeekClient.chat` (`deepseek.go` lines
72–125): request send failure, non-200 status, body decode failure, and an
empty choice list. -/
inductive ChatErr where
  | sendReq
  | apiStatus (code : Nat)
  | decodeResp
  | noChoices
deriving Repr, DecidableEq

/-- `DeepSeekClient.chat` (`deepseek.go` lines 72–125), from the `Do` call
on: `doRes = none` models a transport error from `c.http.Do`; a non-200
status is an error; in streaming mode the body goes to `handleStream`
(which never fails); in blocking mode a decode failure or an empty choice
list is an error, otherwise the first choice's content is returned.
(The `json.Marshal` / `http.NewRequest` steps cannot fail on the string
payloads involved and are not modelled.) -/
def chatGo (stream : Bool) (parse : Str → Option (List Str))
    (doRes : Option HttpResp) : Except ChatErr Str :=
  match doRes with
  | none => Except.error ChatErr.sendReq
  | some resp =>
    if resp.status ≠ 200 then Except.error (ChatErr.apiStatus resp.status)
    else if stream then
      Except.ok (handleStreamGo parse resp.bodyLines [] []).1
    else
      match resp.decodedChoices with
      | none => Except.error ChatErr.decodeResp
      | some [] => Except.error ChatErr.noChoices
      | some (c :: _) => Except.ok c

/-- The `json.Unmarshal` oracle for the exact stream payloads of
`TestDeepSeekClient_HandleStream_InvalidJSON`: the well-formed delta decodes
to one choice with content `"valid"`, everything else (in particular
`"invalid json"`) fails to decode. -/
def exStreamParse : Str → Option (List Str) := fun s =>
  if s = "\x7b\"choices\":[\x7b\"delta\":\x7b\"content\":\"valid\"\x7d\x7d]\x7d".data
  then some ["valid".data] else none

/-- C9 counterexample: a streaming response whose first data line is
malformed is not reported as an error — `handleStream` skips it
(`continue`, `deepseek.go` line 144) and the call succeeds with the
remaining chunks, exactly as the repository's own test
`TestDeepSeekClient_HandleStream_InvalidJSON` expects. -/
theorem C9_malformed_stream_line_not_error_counterexample :
    exStreamParse "invalid json".data = none
    ∧ chatGo true exStreamParse
        (some { status := 200,
                bodyLines := ["data: invalid json".data,
                  ("data: " ++
                   "\x7b\"choices\":[\x7b\"delta\":\x7b\"content\":\"valid\"\x7d\x7d]\x7d").data,
                  "data: [DONE]".data],
                decodedChoices := none })
      = Except.ok "valid".data := by
  decide

/-- C9 (amended): every call reports a single terminal error when the
request fails — transport error, non-success status, and, in blocking mode,
a malformed or choice-less response payload; in streaming mode, however,
malformed data lines are silently skipped rather than reported: once the
status is 200 the streaming call always succeeds with the well-formed
chunks. -/
theorem C9_terminal_error_reporting_amended (stream : Bool)
    (parse : Str → Option (List Str)) (resp : HttpResp) :
    chatGo stream parse none = Except.error ChatErr.sendReq
    ∧ (resp.status ≠ 200 →
        chatGo stream parse (some resp)
          = Except.error (ChatErr.apiStatus resp.status))
    ∧ (resp.status = 200 → resp.decodedChoices = none →
        chatGo false parse (some resp) = Except.error ChatErr.decodeResp)
    ∧ (resp.status = 200 → resp.decodedChoices = some [] →
        chatGo false parse (some resp) = Except.error ChatErr.noChoices)
    ∧ (resp.status = 200 →
        chatGo true parse (some resp)
          = Except.ok (handleStreamGo parse resp.bodyLines [] []).1) := by
  refine ⟨rfl, ?_, ?_, ?_, ?_⟩
  · intro h
    simp [chatGo, h]
  · intro h hd
    simp [chatGo, h, hd]
  · intro h hd
    simp [chatGo, h, hd]
  · intro h
    simp [chatGo, h]

theorem C9_terminal_error_reporting_amended_witness :
    ((500 : Nat) ≠ 200
      ∧ chatGo false exStreamParse
          (some { status := 500, bodyLines := [], decodedChoices := none })
        = Except.error (ChatErr.apiStatus 500))
    ∧ ((200 : Nat) = 200
      ∧ chatGo true exStreamParse
          (some { status := 200, bodyLines := [], decodedChoices := none })
        = Except.ok []) :=
  ⟨⟨by decide,
    (C9_terminal_error_reporting_amended false exStreamParse
      { status := 500, bodyLines := [], decodedChoices := none }).2.1
      (by decide)⟩,
   ⟨rfl,
    (C9_terminal_error_reporting_amended true exStreamParse
      { status := 200, bodyLines := [], decodedChoices := none }).2.2.2.2 rfl⟩⟩

/-! ### CLI option application (`internal/cli`, `ApplyToConfig`) -/

/-- The three supported backends (`llm.Provider`). -/
inductive Provider where
  | deepseek
  | gemini
  | dashscope
deriving Repr, DecidableEq

/-- Modelled from the spec: `llm.ParseProvider` is not under src/ (only its
callers are); per the CLI flag documentation it accepts exactly the names
`deepseek`, `gemini`, `dashscope` and fails on anything else. -/
def ParseProvider (s : Str) : Except Unit Provider :=
  if s = "deepseek".data then Except.ok Provider.deepseek
  else if s = "gemini".data then Except.ok Provider.gemini
  else if s = "dashscope".data then Except.ok Provider.dashscope
  else Except.error ()

/-- Modelled from the spec: `config.GetDefaultModel` is not under src/; the
per-provider default models are those of the README provider table.  Only
the fact that it is a function of the provider matters below. -/
def GetDefaultModel : Provider → Str
  | Provider.deepseek => "deepseek-chat".data
  | Provider.gemini => "gemini-2.0-flash".data
  | Provider.dashscope => "qwen-plus".data

/-- `config.RoleConfig` — one role's backend configuration.  The Go
`float64` temperature is carried as a rational: no arithmetic is ever done
on it, it is only stored and copied. -/
structure RoleConfig where
  provider : Provider
  model : Str
  temperature : Rat
  maxTokens : Int
deriving Repr, DecidableEq

/-- `config.Config` — the three role configurations. -/
structure Config where
  proRole : RoleConfig
  conRole : RoleConfig
  judgeRole : RoleConfig
deriving Repr, DecidableEq

/-- `cli.Options` — the parsed command-line options (the fields
`ApplyToConfig` reads). -/
structure Options where
  proProvider : Str
  proModel : Str
  conProvider : Str
  conModel : Str
  judgeProvider : Str
  judgeModel : Str
deriving Repr, DecidableEq

/-- `Options.ApplyToConfig` (`internal/cli`, flag-handling file, lines
312–353) is six statement blocks in sequence, one def each below.  For each
role: when the provider name parses, set the role's provider and — only when
no model was given — the provider's default model; then, when a model was
given, set it.  Temperature and MaxTokens are never assigned.  This def is
the Pro-role provider block. -/
def applyProProvider (opts : Options) (cfg : Config) : Config :=
  match ParseProvider opts.proProvider with
  | Except.ok p =>
    let m := if opts.proModel = [] then GetDefaultModel p
             else cfg.proRole.model
    { cfg with proRole := { cfg.proRole with provider := p, model := m } }
  | Except.error _ => cfg

/-- The trailing `if opts.ProModel != ""` assignment of the Pro block. -/
def applyProModel (opts : Options) (cfg : Config) : Config :=
  if opts.proModel ≠ [] then
    { cfg with proRole := { cfg.proRole with model := opts.proModel } }
  else cfg

/-- The Con block mirroring `applyProProvider`. -/
def applyConProvider (opts : Options) (cfg : Config) : Config :=
  match ParseProvider opts.conProvider with
  | Except.ok p =>
    let m := if opts.conModel = [] then GetDefaultModel p
             else cfg.conRole.model
    { cfg with conRole := { cfg.conRole with provider := p, model := m } }
  | Except.error _ => cfg

/-- The trailing `if opts.ConModel != ""` assignment of the Con block. -/
def applyConModel (opts : Options) (cfg : Config) : Config :=
  if opts.conModel ≠ [] then
    { cfg with conRole := { cfg.conRole with model := opts.conModel } }
  else cfg

/-- The Judge block mirroring `applyProProvider`. -/
def applyJudgeProvider (opts : Options) (cfg : Config) : Config :=
  match ParseProvider opts.judgeProvider with
  | Except.ok p =>
    let m := if opts.judgeModel = [] then GetDefaultModel p
             else cfg.judgeRole.model
    { cfg with judgeRole := { cfg.judgeRole with provider := p, model := m } }
  | Except.error _ => cfg

/-- The trailing `if opts.JudgeModel != ""` assignment of the Judge block. -/
def applyJudgeModel (opts : Options) (cfg : Config) : Config :=
  if opts.judgeModel ≠ [] then
    { cfg with judgeRole := { cfg.judgeRole with model := opts.judgeModel } }
  else cfg

/-- `ApplyToConfig` is the six statement blocks in source order. -/
def ApplyToConfig (opts : Options) (cfg : Config) : Config :=
  applyJudgeModel opts (applyJudgeProvider opts
    (applyConModel opts (applyConProvider opts
      (applyProModel opts (applyProProvider opts cfg)))))

/-- The temperature and output-cap fields of the three roles, the part of
`Config` the options must not touch. -/
def FrameEq (a b : Config) : Prop :=
  a.proRole.temperature = b.proRole.temperature
  ∧ a.proRole.maxTokens = b.proRole.maxTokens
  ∧ a.conRole.temperature = b.conRole.temperature
  ∧ a.conRole.maxTokens = b.conRole.maxTokens
  ∧ a.judgeRole.temperature = b.judgeRole.temperature
  ∧ a.judgeRole.maxTokens = b.judgeRole.maxTokens

theorem FrameEq_trans {a b c : Config} (h1 : FrameEq a b) (h2 : FrameEq b c) :
    FrameEq a c := by
  obtain ⟨x1, x2, x3, x4, x5, x6⟩ := h1
  obtain ⟨y1, y2, y3, y4, y5, y6⟩ := h2
  exact ⟨x1.trans y1, x2.trans y2, x3.trans y3, x4.trans y4,
    x5.trans y5, x6.trans y6⟩

theorem applyProProvider_frame (opts : Options) (cfg : Config) :
    FrameEq (applyProProvider opts cfg) cfg := by
  cases h : ParseProvider opts.proProvider <;>
    simp [applyProProvider, h, FrameEq]

theorem applyProModel_frame (opts : Options) (cfg : Config) :
    FrameEq (applyProModel opts cfg) cfg := by
  by_cases h : opts.proModel = [] <;> simp [applyProModel, h, FrameEq]

theorem applyConProvider_frame (opts : Options) (cfg : Config) :
    FrameEq (applyConProvider opts cfg) cfg := by
  cases h : ParseProvider opts.conProvider <;>
    simp [applyConProvider, h, FrameEq]

theorem applyConModel_frame (opts : Options) (cfg : Config) :
    FrameEq (applyConModel opts cfg) cfg := by
  by_cases h : opts.conModel = [] <;> simp [applyConModel, h, FrameEq]

theorem applyJudgeProvider_frame (opts : Options) (cfg : Config) :
    FrameEq (applyJudgeProvider opts cfg) cfg := by
  cases h : ParseProvider opts.judgeProvider <;>
    simp [applyJudgeProvider, h, FrameEq]

theorem applyJudgeModel_frame (opts : Options) (cfg : Config) :
    FrameEq (applyJudgeModel opts cfg) cfg := by
  by_cases h : opts.judgeModel = [] <;> simp [applyJudgeModel, h, FrameEq]

/-- C10: `ApplyToConfig` only ever writes the `Provider` and `Model` fields;
every role's `Temperature` and `MaxTokens` are unchanged for every options
value and every starting configuration, including when the provider is
switched. -/
theorem C10_apply_to_config_preserves_temperature_maxtokens
    (opts : Options) (cfg : Config) :
    (ApplyToConfig opts cfg).proRole.temperature = cfg.proRole.temperature
    ∧ (ApplyToConfig opts cfg).proRole.maxTokens = cfg.proRole.maxTokens
    ∧ (ApplyToConfig opts cfg).conRole.temperature = cfg.conRole.temperature
    ∧ (ApplyToConfig opts cfg).conRole.maxTokens = cfg.conRole.maxTokens
    ∧ (ApplyToConfig opts cfg).judgeRole.temperature = cfg.judgeRole.temperature
    ∧ (ApplyToConfig opts cfg).judgeRole.maxTokens = cfg.judgeRole.maxTokens := by
  show FrameEq (ApplyToConfig opts cfg) cfg
  exact FrameEq_trans (applyJudgeModel_frame opts _)
    (FrameEq_trans (applyJudgeProvider_frame opts _)
      (FrameEq_trans (applyConModel_frame opts _)
        (FrameEq_trans (applyConProvider_frame opts _)
          (FrameEq_trans (applyProModel_frame opts _)
            (applyProProvider_frame opts cfg)))))

end Dialecta
